import Mathlib

/-!
Verification development for the Fallout Room incident-response pipeline
(repository `automated_fallout`).  The definitions below are a shallow
embedding of the Python sources:

* `safe_json_parse`, `validate_and_enhance_plans` and the multi-plan
  fallback data come from
  `incident_response/management/commands/auto_create_actions_deliverables.py`;
* the plan-selection / action-generation command comes from
  `incident_response/management/commands/generate_actions_from_plan.py`;
* the plan-selection endpoint comes from `incident_response/views.py`.

Python runtime behaviour is modelled explicitly: fallible dynamic
operations (`.upper()`, `int(...)`, subscripts, ...) return `Except PyErr`,
`json.loads` is modelled by an executable recursive-descent parser over
`List Char` that reports the error classes the repository inspects
(`Unterminated string` together with its line number), and database rows
are plain records in a `DB` structure.  The external model boundary
(chat-completion calls) is an oracle: each call site reads a response
`Option String` from an `AIEnv` value, `none` meaning the call raised.
-/

/-- Backtick character, written by code point to keep sources plain. -/
def btick : Char := Char.ofNat 96

/-- Double-quote character. -/
def dquote : Char := Char.ofNat 34

/-- Backslash character. -/
def bslash : Char := Char.ofNat 92

/-- Opening curly brace character. -/
def lbrace : Char := Char.ofNat 123

/-- Closing curly brace character. -/
def rbrace : Char := Char.ofNat 125

/-- Whitespace for Python `str.strip` and the regex class `\s`
(space, tab, newline, carriage return, vertical tab, form feed). -/
def isPyWs (c : Char) : Bool :=
  c = ' ' || c = '\t' || c = '\n' || c = '\r' || c = Char.ofNat 11 || c = Char.ofNat 12

/-- Python `str.strip()` on a character list. -/
def pyStrip (cs : List Char) : List Char :=
  ((cs.dropWhile isPyWs).reverse.dropWhile isPyWs).reverse

/-- Python `str.split('\n')` semantics: the empty string yields one empty
field and every newline separates two fields. -/
def splitNl : List Char → List (List Char)
  | [] => [[]]
  | c :: rest =>
    if c = '\n' then [] :: splitNl rest
    else
      match splitNl rest with
      | [] => [[c]]
      | l :: ls => (c :: l) :: ls

/-- Python `'\n'.join` on character-list lines. -/
def joinNl (ls : List (List Char)) : List Char :=
  List.intercalate ['\n'] ls

/-- JSON values as produced by `json.loads`.  Numbers are modelled as
integers: no call site of the repository relies on fractional numbers,
and the parser below reports a syntax error on them. -/
inductive Json where
  | null : Json
  | bool : Bool → Json
  | num : Int → Json
  | str : String → Json
  | arr : List Json → Json
  | obj : List (String × Json) → Json

/-- Error classes of `json.JSONDecodeError` that the repository inspects:
`safe_json_parse` looks for the substring `Unterminated string` in the
message and reads `e.lineno`; every other decode error is only caught. -/
inductive JErr where
  | unterminatedString : Nat → JErr
  | syntaxError : JErr
deriving DecidableEq

/-- Whitespace skipping of the JSON scanner (space, tab, newline, carriage
return), tracking the current line number. -/
def skipJsonWs : List Char → Nat → List Char × Nat
  | [], ln => ([], ln)
  | c :: cs, ln =>
    if c = '\n' then skipJsonWs cs (ln + 1)
    else if c = ' ' || c = '\t' || c = '\r' then skipJsonWs cs ln
    else (c :: cs, ln)

/-- Hexadecimal digit test for `\uXXXX` escapes. -/
def isHexDigit (c : Char) : Bool :=
  c.isDigit || (('a' ≤ c) && (c ≤ 'f')) || (('A' ≤ c) && (c ≤ 'F'))

/-- Value of one hexadecimal digit. -/
def hexVal (c : Char) : Nat :=
  if c.isDigit then c.toNat - 48
  else if 'a' ≤ c then c.toNat - 87
  else c.toNat - 55

/-- Simple one-character JSON escapes. -/
def escSimple (e : Char) : Option Char :=
  if e = dquote then some dquote
  else if e = bslash then some bslash
  else if e = '/' then some '/'
  else if e = 'n' then some '\n'
  else if e = 't' then some '\t'
  else if e = 'r' then some '\r'
  else if e = 'b' then some (Char.ofNat 8)
  else if e = 'f' then some (Char.ofNat 12)
  else none

/-- Scan of a JSON string body after the opening quote.  Reaching the end
of input inside the string is the `Unterminated string` error, reported
at the line the string started on (raw control characters, newlines
included, are themselves syntax errors, so a string never spans lines). -/
def parseStrBody : Nat → Nat → List Char → Except JErr (List Char × List Char)
  | 0, _, _ => .error .syntaxError
  | _ + 1, startLn, [] => .error (.unterminatedString startLn)
  | fuel + 1, startLn, c :: cs =>
    if c = dquote then .ok ([], cs)
    else if c = bslash then
      match cs with
      | [] => .error (.unterminatedString startLn)
      | e :: cs2 =>
        match escSimple e with
        | some d => (parseStrBody fuel startLn cs2).map (fun p => (d :: p.1, p.2))
        | none =>
          if e = 'u' then
            match cs2 with
            | h1 :: h2 :: h3 :: h4 :: cs3 =>
              if isHexDigit h1 && isHexDigit h2 && isHexDigit h3 && isHexDigit h4 then
                (parseStrBody fuel startLn cs3).map
                  (fun p => (Char.ofNat (hexVal h1 * 4096 + hexVal h2 * 256 + hexVal h3 * 16 + hexVal h4) :: p.1, p.2))
              else .error .syntaxError
            | _ => .error .syntaxError
          else .error .syntaxError
    else if c.toNat < 32 then .error .syntaxError
    else (parseStrBody fuel startLn cs).map (fun p => (c :: p.1, p.2))

/-- Digit-list to natural number. -/
def digitsToNat (cs : List Char) : Nat :=
  cs.foldl (fun a c => a * 10 + (c.toNat - 48)) 0

/-- Rejection of fractional or exponent suffixes: numbers of the model are
integers only. -/
def checkNoFrac (v : Int) (rest : List Char) : Except JErr (Int × List Char) :=
  match rest with
  | c :: _ => if c = '.' || c = 'e' || c = 'E' then .error .syntaxError else .ok (v, rest)
  | [] => .ok (v, rest)

/-- Integer literal parser (optional minus sign, then digits). -/
def parseNum (cs : List Char) : Except JErr (Int × List Char) :=
  match cs with
  | c :: rest =>
    if c = '-' then
      match List.span Char.isDigit rest with
      | (ds, rest2) =>
        if ds.isEmpty then .error .syntaxError
        else checkNoFrac (-(digitsToNat ds : Int)) rest2
    else
      match List.span Char.isDigit cs with
      | (ds, rest2) =>
        if ds.isEmpty then .error .syntaxError
        else checkNoFrac (digitsToNat ds : Int) rest2
  | [] => .error .syntaxError

/-- Parser modes: a value, the members of an object (accumulated so far),
or the elements of an array. -/
inductive PMode where
  | value : PMode
  | members : List (String × Json) → PMode
  | elements : List Json → PMode

/-- Recursive-descent JSON scanner, fuel-based so that it is structurally
recursive and kernel-reducible.  Returns the parsed value, the remaining
input and the current line number. -/
def parseCore : Nat → PMode → List Char → Nat → Except JErr (Json × List Char × Nat)
  | 0, _, _, _ => .error .syntaxError
  | fuel + 1, .value, cs, ln =>
    match skipJsonWs cs ln with
    | (cs1, ln1) =>
      match cs1 with
      | [] => .error .syntaxError
      | c :: rest =>
        if c = dquote then
          match parseStrBody (rest.length + 1) ln1 rest with
          | .ok (body, rest2) => .ok (.str (String.mk body), rest2, ln1)
          | .error e => .error e
        else if c = lbrace then
          match skipJsonWs rest ln1 with
          | (rest2, ln2) =>
            match rest2 with
            | c2 :: rest3 =>
              if c2 = rbrace then .ok (.obj [], rest3, ln2)
              else parseCore fuel (.members []) rest2 ln2
            | [] => .error .syntaxError
        else if c = '[' then
          match skipJsonWs rest ln1 with
          | (rest2, ln2) =>
            match rest2 with
            | ']' :: rest3 => .ok (.arr [], rest3, ln2)
            | _ => parseCore fuel (.elements []) rest2 ln2
        else if c = 't' then
          match rest with
          | 'r' :: 'u' :: 'e' :: rest2 => .ok (.bool true, rest2, ln1)
          | _ => .error .syntaxError
        else if c = 'f' then
          match rest with
          | 'a' :: 'l' :: 's' :: 'e' :: rest2 => .ok (.bool false, rest2, ln1)
          | _ => .error .syntaxError
        else if c = 'n' then
          match rest with
          | 'u' :: 'l' :: 'l' :: rest2 => .ok (.null, rest2, ln1)
          | _ => .error .syntaxError
        else
          match parseNum (c :: rest) with
          | .ok (v, rest2) => .ok (.num v, rest2, ln1)
          | .error e => .error e
  | fuel + 1, .members acc, cs, ln =>
    match skipJsonWs cs ln with
    | (cs1, ln1) =>
      match cs1 with
      | c :: rest =>
        if c = dquote then
          match parseStrBody (rest.length + 1) ln1 rest with
          | .error e => .error e
          | .ok (key, rest2) =>
            match skipJsonWs rest2 ln1 with
            | (rest3, ln2) =>
              match rest3 with
              | ':' :: rest4 =>
                match parseCore fuel .value rest4 ln2 with
                | .error e => .error e
                | .ok (v, rest5, ln3) =>
                  match skipJsonWs rest5 ln3 with
                  | (rest6, ln4) =>
                    match rest6 with
                    | ',' :: rest7 => parseCore fuel (.members (acc ++ [(String.mk key, v)])) rest7 ln4
                    | c2 :: rest7 =>
                      if c2 = rbrace then .ok (.obj (acc ++ [(String.mk key, v)]), rest7, ln4)
                      else .error .syntaxError
                    | [] => .error .syntaxError
              | _ => .error .syntaxError
        else .error .syntaxError
      | [] => .error .syntaxError
  | fuel + 1, .elements acc, cs, ln =>
    match parseCore fuel .value cs ln with
    | .error e => .error e
    | .ok (v, rest, ln2) =>
      match skipJsonWs rest ln2 with
      | (rest2, ln3) =>
        match rest2 with
        | ',' :: rest3 => parseCore fuel (.elements (acc ++ [v])) rest3 ln3
        | ']' :: rest3 => .ok (.arr (acc ++ [v]), rest3, ln3)
        | _ => .error .syntaxError

/-- Model of `json.loads`: parse one JSON document, then require only
trailing whitespace (`Extra data` otherwise). -/
def parseJson (s : String) : Except JErr Json :=
  match parseCore (4 * s.data.length + 64) .value s.data 1 with
  | .error e => .error e
  | .ok (v, rest, ln) =>
    match skipJsonWs rest ln with
    | (rest2, _) => if rest2.isEmpty then .ok v else .error .syntaxError

/-- Tail of a code fence after the three backticks: the regex
`[a-zA-Z]*\n?` part of `re.sub(r'```[a-zA-Z]*\n?', '', cleaned)`. -/
def dropFenceTail (cs : List Char) : List Char :=
  match cs.dropWhile (fun c => c.isAlpha) with
  | c :: rest => if c = '\n' then rest else c :: rest
  | [] => []

/-- Scan of `re.sub(r'```[a-zA-Z]*\n?', '', cleaned)`: leftmost,
non-overlapping removal of every triple-backtick fence marker. -/
def stripFenceGo : Nat → List Char → List Char
  | 0, cs => cs
  | _ + 1, [] => []
  | fuel + 1, c :: rest =>
    if c = btick then
      match rest with
      | c2 :: c3 :: rest2 =>
        if c2 = btick && c3 = btick then stripFenceGo fuel (dropFenceTail rest2)
        else c :: stripFenceGo fuel rest
      | _ => c :: stripFenceGo fuel rest
    else c :: stripFenceGo fuel rest

/-- Scan of `re.sub(r'```\s*$', '', cleaned)`: removal of a trailing
triple backtick followed only by whitespace. -/
def stripTrailGo : Nat → List Char → List Char
  | 0, cs => cs
  | _ + 1, [] => []
  | fuel + 1, c :: rest =>
    if c = btick then
      match rest with
      | c2 :: c3 :: rest2 =>
        if c2 = btick && c3 = btick && rest2.all isPyWs then []
        else c :: stripTrailGo fuel rest
      | _ => c :: stripTrailGo fuel rest
    else c :: stripTrailGo fuel rest

/-- Both fence-stripping substitutions applied to a stripped response. -/
def stripFences (cs : List Char) : List Char :=
  stripTrailGo (cs.length + 1) (stripFenceGo (cs.length + 1) cs)

/-- Unterminated-string repair of `safe_json_parse`: when the original
decode error was `Unterminated string` at line `lineno`, and the cleaned
text has strictly more lines than `lineno`, and the stripped offending
line ends neither in a quote nor in a quote-comma, a closing quote is
appended to that line. -/
def fixUnterminated (cs : List Char) (lineno : Nat) : List Char :=
  let lines := splitNl cs
  if lineno < lines.length then
    let line := lines.getD (lineno - 1) []
    let t := pyStrip line
    if !(List.isSuffixOf [dquote] t) && !(List.isSuffixOf [dquote, ','] t) then
      joinNl (lines.set (lineno - 1) (line ++ [dquote]))
    else cs
  else cs

/-- Text the second parse attempt of `safe_json_parse` runs on: the
stripped input with fence markers removed and, for an unterminated-string
error, the line repair applied. -/
def repairedText (s : String) (e : JErr) : String :=
  let cleaned := stripFences (pyStrip s.data)
  match e with
  | .unterminatedString ln => String.mk (fixUnterminated cleaned ln)
  | .syntaxError => String.mk cleaned

/-- Hard-coded fallback payload of `safe_json_parse`: a mapping with key
`action_plans` holding four generic professionally-worded plans. -/
def fallback_action_plans : Json :=
  .obj [("action_plans", .arr [
    .obj [
      ("plan_name", .str "Rapid Response Plan"),
      ("strategy", .str "Immediate threat containment with fast response times. Focus on quick isolation and damage control to minimize business impact. This approach prioritizes speed over thoroughness when time is critical."),
      ("timeline", .str "1-2 hours"),
      ("risk_level", .str "HIGH"),
      ("confidence_score", .str "HIGH"),
      ("estimated_hours", .num 2),
      ("resource_requirements", .str "SOC Analyst, Security Team Lead, Network Administrator"),
      ("success_criteria", .str "Threat contained within 2 hours, systems restored to normal operation")],
    .obj [
      ("plan_name", .str "Comprehensive Analysis Plan"),
      ("strategy", .str "Thorough investigation approach with detailed forensic analysis and root cause identification. Ensures complete understanding before action. Like having a detective solve the case properly before making arrests."),
      ("timeline", .str "4-6 hours"),
      ("risk_level", .str "LOW"),
      ("confidence_score", .str "HIGH"),
      ("estimated_hours", .num 5),
      ("resource_requirements", .str "Security Analyst, Forensics Expert, Compliance Officer, Technical Lead"),
      ("success_criteria", .str "Complete incident analysis, root cause identified, prevention measures implemented")],
    .obj [
      ("plan_name", .str "Stakeholder Communication Plan"),
      ("strategy", .str "Communication-focused approach prioritizing stakeholder management, compliance reporting, and transparency throughout the incident response. Perfect when reputation and trust are paramount."),
      ("timeline", .str "2-4 hours"),
      ("risk_level", .str "MEDIUM"),
      ("confidence_score", .str "MEDIUM"),
      ("estimated_hours", .num 3),
      ("resource_requirements", .str "Communications Team, Legal Counsel, Management, Compliance Officer"),
      ("success_criteria", .str "All stakeholders informed, compliance maintained, reputation protected")],
    .obj [
      ("plan_name", .str "Hybrid Response Plan"),
      ("strategy", .str "Balanced approach combining immediate containment with parallel investigation activities. Optimizes both speed and thoroughness. The Swiss Army knife of incident response strategies."),
      ("timeline", .str "3-5 hours"),
      ("risk_level", .str "MEDIUM"),
      ("confidence_score", .str "HIGH"),
      ("estimated_hours", .num 4),
      ("resource_requirements", .str "Multi-disciplinary team: SOC Analyst, Forensics Expert, Communications Lead"),
      ("success_criteria", .str "Incident contained and analyzed simultaneously, stakeholders kept informed")]])]

/-- Model of `safe_json_parse`: direct parse; on a decode error, parse of
the repaired text; on a second failure, the hard-coded fallback payload.
The function is total, mirroring the bare `except` of the source. -/
def safe_json_parse (s : String) : Json :=
  match parseJson s with
  | .ok v => v
  | .error e =>
    match parseJson (repairedText s e) with
    | .ok v => v
    | .error _ => fallback_action_plans

/-- C1: for every input string that the parser rejects and that remains
unparsable after the repair steps, `safe_json_parse` returns the one
hard-coded fallback payload (the `action_plans` mapping with four generic
plans); being a total function into `Json`, it propagates no error. -/
theorem C1_parser_fallback_total (s : String) (e e2 : JErr)
    (h1 : parseJson s = .error e)
    (h2 : parseJson (repairedText s e) = .error e2) :
    safe_json_parse s = fallback_action_plans := by
  simp only [safe_json_parse, h1, h2]

/-- Witness for C1 at the concrete malformed input "x". -/
theorem C1_parser_fallback_total_witness :
    safe_json_parse "x" = fallback_action_plans :=
  C1_parser_fallback_total "x" .syntaxError .syntaxError (by rfl) (by rfl)

/-- Python runtime errors surfaced by the embedded dynamic operations. -/
inductive PyErr where
  | attributeError : String → PyErr
  | typeError : String → PyErr
  | valueError : String → PyErr
  | keyError : String → PyErr
  | unboundLocalError : String → PyErr
  | externalError : PyErr
deriving DecidableEq

/-- First-match lookup in a JSON object field list. -/
def lookupField : List (String × Json) → String → Option Json
  | [], _ => none
  | (k, v) :: rest, key => if k = key then some v else lookupField rest key

/-- Python `dict.get(key, default)`: the default only when the key is
absent; any non-dict receiver lacks the attribute. -/
def pyGet (v : Json) (key : String) (dflt : Json) : Except PyErr Json :=
  match v with
  | .obj fs => .ok ((lookupField fs key).getD dflt)
  | _ => .error (.attributeError "get")

/-- Python subscript `value[key]` with a string key. -/
def pyIndex (v : Json) (key : String) : Except PyErr Json :=
  match v with
  | .obj fs =>
    match lookupField fs key with
    | some x => .ok x
    | none => .error (.keyError key)
  | _ => .error (.typeError "subscript")

/-- Python `.upper()`: only strings have the attribute. -/
def pyUpper (v : Json) : Except PyErr String :=
  match v with
  | .str s => .ok (String.mk (s.data.map Char.toUpper))
  | _ => .error (.attributeError "upper")

/-- Python `.lower()` on a known string. -/
def pyLowerStr (s : String) : String :=
  String.mk (s.data.map Char.toLower)

/-- Python `.lower()`: only strings have the attribute. -/
def pyLower (v : Json) : Except PyErr String :=
  match v with
  | .str s => .ok (pyLowerStr s)
  | _ => .error (.attributeError "lower")

/-- Python `int(x)` on a JSON value: integers pass through, booleans are
0/1, strings are parsed after stripping (sign then digits), everything
else is a type error. -/
def pyInt (v : Json) : Except PyErr Int :=
  match v with
  | .num n => .ok n
  | .bool b => .ok (if b then 1 else 0)
  | .str s =>
    match pyStrip s.data with
    | '-' :: ds =>
      if !ds.isEmpty && ds.all Char.isDigit then .ok (-(digitsToNat ds : Int))
      else .error (.valueError "int")
    | '+' :: ds =>
      if !ds.isEmpty && ds.all Char.isDigit then .ok (digitsToNat ds : Int)
      else .error (.valueError "int")
    | ds =>
      if !ds.isEmpty && ds.all Char.isDigit then .ok (digitsToNat ds : Int)
      else .error (.valueError "int")
  | _ => .error (.typeError "int")

/-- Python `len(x)`: strings, lists and dicts have a length. -/
def pyLen (v : Json) : Except PyErr Nat :=
  match v with
  | .str s => .ok s.data.length
  | .arr xs => .ok xs.length
  | .obj fs => .ok fs.length
  | _ => .error (.typeError "len")

/-- Python truthiness of a parsed JSON value. -/
def pyTruthy (v : Json) : Bool :=
  match v with
  | .null => false
  | .bool b => b
  | .num n => n ≠ 0
  | .str s => !s.data.isEmpty
  | .arr xs => !xs.isEmpty
  | .obj fs => !fs.isEmpty

/-- Python `x += s` with a string right operand: strings concatenate,
lists extend with the one-character strings of `s`, anything else is a
type error. -/
def pyAugmentStrategy (v : Json) (s : String) : Except PyErr Json :=
  match v with
  | .str t => .ok (.str (t ++ s))
  | .arr xs => .ok (.arr (xs ++ s.data.map (fun c => Json.str (String.mk [c]))))
  | _ => .error (.typeError "concat")

/-- Substring test (Python `needle in haystack`). -/
def hasSub (needle : List Char) : List Char → Bool
  | [] => needle.isEmpty
  | c :: rest => needle.isPrefixOf (c :: rest) || hasSub needle rest

/-- Default strategy text of the validator. -/
def default_strategy : String :=
  "Comprehensive incident response approach with focus on rapid containment and thorough analysis"

/-- Sentence the validator appends to short strategies, referencing the
already-normalized risk level. -/
def riskSentence (rl : String) : String :=
  " This " ++ pyLowerStr rl ++ "-risk approach focuses on balancing speed with thoroughness to achieve optimal incident resolution."

/-- Risk and confidence enumeration of the validator. -/
def enumLMH : List String := ["LOW", "MEDIUM", "HIGH"]

/-- Clamp of `estimated_hours`: `min(max(int(...), 1), 8)`. -/
def clampHours (n : Int) : Int := min (max n 1) 8

/-- Validation and enhancement of a single plan record, mirroring one
iteration of the `validate_and_enhance_plans` loop of
`auto_create_actions_deliverables.py` (`i` is the number of plans already
enhanced, used only by the `plan_name` default). -/
def enhancePlan (i : Nat) (plan : Json) : Except PyErr Json :=
  match pyGet plan "plan_name" (.str ("Strategic Plan " ++ Nat.repr (i + 1))) with
  | .error er => .error er
  | .ok pn =>
  match pyGet plan "strategy" (.str default_strategy) with
  | .error er => .error er
  | .ok st0 =>
  match pyGet plan "timeline" (.str "2-4 hours") with
  | .error er => .error er
  | .ok tl =>
  match pyGet plan "risk_level" (.str "MEDIUM") with
  | .error er => .error er
  | .ok rlRaw =>
  match pyUpper rlRaw with
  | .error er => .error er
  | .ok rlUp =>
  match pyGet plan "confidence_score" (.str "MEDIUM") with
  | .error er => .error er
  | .ok csRaw =>
  match pyUpper csRaw with
  | .error er => .error er
  | .ok csUp =>
  match pyGet plan "estimated_hours" (.num 3) with
  | .error er => .error er
  | .ok ehRaw =>
  match pyInt ehRaw with
  | .error er => .error er
  | .ok ehInt =>
  match pyGet plan "resource_requirements" (.str "Security Team, SOC Analyst, Incident Manager") with
  | .error er => .error er
  | .ok rr =>
  match pyGet plan "success_criteria" (.str "Incident resolved successfully with minimal business impact") with
  | .error er => .error er
  | .ok sc =>
  let rl := if enumLMH.contains rlUp then rlUp else "MEDIUM"
  let cs := if enumLMH.contains csUp then csUp else "MEDIUM"
  match pyLen st0 with
  | .error er => .error er
  | .ok stLen =>
  match (if stLen < 50 then pyAugmentStrategy st0 (riskSentence rl) else .ok st0) with
  | .error er => .error er
  | .ok st =>
  .ok (.obj [("plan_name", pn), ("strategy", st), ("timeline", tl),
    ("risk_level", .str rl), ("confidence_score", .str cs),
    ("estimated_hours", .num (clampHours ehInt)), ("resource_requirements", rr),
    ("success_criteria", sc)])

/-- Loop of `validate_and_enhance_plans` over the plan list. -/
def validateGo (i : Nat) : List Json → Except PyErr (List Json)
  | [] => .ok []
  | p :: rest =>
    match enhancePlan i p with
    | .error er => .error er
    | .ok e =>
      match validateGo (i + 1) rest with
      | .error er => .error er
      | .ok es => .ok (e :: es)

/-- Model of `validate_and_enhance_plans`. -/
def validate_and_enhance_plans (plans : List Json) : Except PyErr (List Json) :=
  validateGo 0 plans

/-- Membership in the LOW/MEDIUM/HIGH enumeration. -/
def isLMH (r : String) : Prop := r = "LOW" ∨ r = "MEDIUM" ∨ r = "HIGH"

/-- Appending strings concatenates their character data. -/
theorem str_data_append (a b : String) : (a ++ b).data = a.data ++ b.data := by
  cases a; cases b; rfl

/-- Lower bound on the length of the appended risk sentence. -/
theorem riskSentence_len (rl : String) : 50 ≤ (riskSentence rl).data.length := by
  unfold riskSentence
  rw [str_data_append, str_data_append, List.length_append, List.length_append]
  have h : 50 ≤ ("-risk approach focuses on balancing speed with thoroughness to achieve optimal incident resolution.").data.length := by decide
  omega

/-- Augmentation adds exactly the appended characters to the length. -/
theorem pyAugment_len (v st : Json) (s : String) (n : Nat)
    (hl : pyLen v = .ok n) (ha : pyAugmentStrategy v s = .ok st) :
    pyLen st = .ok (n + s.data.length) := by
  cases v with
  | str t =>
    simp only [pyLen, Except.ok.injEq] at hl
    simp only [pyAugmentStrategy, Except.ok.injEq] at ha
    subst ha
    simp [pyLen, str_data_append, hl]
  | arr xs =>
    simp only [pyLen, Except.ok.injEq] at hl
    simp only [pyAugmentStrategy, Except.ok.injEq] at ha
    subst ha
    simp [pyLen, hl]
  | null => simp [pyAugmentStrategy] at ha
  | bool b => simp [pyAugmentStrategy] at ha
  | num m => simp [pyAugmentStrategy] at ha
  | obj fs => simp [pyAugmentStrategy] at ha

/-- Clamped hours always land in the interval [1, 8]. -/
theorem clampHours_bounds (n : Int) : 1 ≤ clampHours n ∧ clampHours n ≤ 8 :=
  ⟨le_min (le_max_right n 1) (by norm_num), min_le_right _ _⟩

/-- Clamping fixes values already in the interval. -/
theorem clampHours_fix (n : Int) (h1 : 1 ≤ n) (h2 : n ≤ 8) : clampHours n = n := by
  unfold clampHours
  rw [max_eq_left h1, min_eq_left h2]

/-- Containment in the enum list gives the three-way disjunction. -/
theorem isLMH_of_contains (r : String) (h : enumLMH.contains r = true) : isLMH r := by
  simp only [enumLMH, List.contains, List.elem_eq_mem, List.mem_cons, List.mem_singleton,
    decide_eq_true_eq] at h
  simpa [isLMH] using h

/-- Normalized risk/confidence values always land in the enumeration. -/
theorem isLMH_ite (r : String) : isLMH (if enumLMH.contains r then r else "MEDIUM") := by
  by_cases h : enumLMH.contains r
  · rw [if_pos h]; exact isLMH_of_contains r h
  · rw [if_neg h]; exact Or.inr (Or.inl rfl)

/-- Uppercasing fixes the literal LOW. -/
theorem upper_LOW : pyUpper (Json.str "LOW") = .ok "LOW" := rfl

/-- Uppercasing fixes the literal MEDIUM. -/
theorem upper_MEDIUM : pyUpper (Json.str "MEDIUM") = .ok "MEDIUM" := rfl

/-- Uppercasing fixes the literal HIGH. -/
theorem upper_HIGH : pyUpper (Json.str "HIGH") = .ok "HIGH" := rfl

/-- Shape of every record the validator emits: all eight fields present,
risk and confidence in the enumeration, clamped hours, and a strategy of
length at least 50. -/
theorem enhancePlan_shape (i : Nat) (p e : Json) (h : enhancePlan i p = .ok e) :
    ∃ pn st tl rl cs eh rr sc,
      e = Json.obj [("plan_name", pn), ("strategy", st), ("timeline", tl),
        ("risk_level", .str rl), ("confidence_score", .str cs),
        ("estimated_hours", .num eh), ("resource_requirements", rr),
        ("success_criteria", sc)] ∧
      isLMH rl ∧ isLMH cs ∧ 1 ≤ eh ∧ eh ≤ 8 ∧
      ∃ m, pyLen st = .ok m ∧ 50 ≤ m := by
  cases p with
  | null => simp [enhancePlan, pyGet] at h
  | bool b => simp [enhancePlan, pyGet] at h
  | num n => simp [enhancePlan, pyGet] at h
  | str s => simp [enhancePlan, pyGet] at h
  | arr xs => simp [enhancePlan, pyGet] at h
  | obj fs =>
    simp only [enhancePlan, pyGet] at h
    split at h
    · exact Except.noConfusion h
    · rename_i rlUp hU1
      split at h
      · exact Except.noConfusion h
      · rename_i csUp hU2
        split at h
        · exact Except.noConfusion h
        · rename_i ehInt hInt
          split at h
          · exact Except.noConfusion h
          · rename_i stLen hLen
            split at h
            · exact Except.noConfusion h
            · rename_i st hSt
              injection h with h
              subst h
              refine ⟨_, st, _, _, _, _, _, _, rfl, isLMH_ite rlUp, isLMH_ite csUp,
                (clampHours_bounds ehInt).1, (clampHours_bounds ehInt).2, ?_⟩
              by_cases hlt : stLen < 50
              · rw [if_pos hlt] at hSt
                refine ⟨stLen + (riskSentence (if enumLMH.contains rlUp then rlUp else "MEDIUM")).data.length,
                  pyAugment_len _ st _ stLen hLen hSt, ?_⟩
                have := riskSentence_len (if enumLMH.contains rlUp then rlUp else "MEDIUM")
                omega
              · rw [if_neg hlt] at hSt
                injection hSt with hSt
                subst hSt
                exact ⟨stLen, hLen, by omega⟩

/-- Re-validating an already-validated record is the identity: all keys
are present, risk and confidence are fixed by uppercasing and pass the
enum check, the hours clamp fixes in-range values, and the long-enough
strategy is not extended again. -/
theorem enhancePlan_fixpoint (j : Nat) (pn st tl rr sc : Json) (rl cs : String) (eh : Int)
    (hrl : isLMH rl) (hcs : isLMH cs) (h1 : 1 ≤ eh) (h8 : eh ≤ 8)
    (hlen : ∃ m, pyLen st = .ok m ∧ 50 ≤ m) :
    enhancePlan j (Json.obj [("plan_name", pn), ("strategy", st), ("timeline", tl),
      ("risk_level", .str rl), ("confidence_score", .str cs),
      ("estimated_hours", .num eh), ("resource_requirements", rr),
      ("success_criteria", sc)]) =
    .ok (Json.obj [("plan_name", pn), ("strategy", st), ("timeline", tl),
      ("risk_level", .str rl), ("confidence_score", .str cs),
      ("estimated_hours", .num eh), ("resource_requirements", rr),
      ("success_criteria", sc)]) := by
  obtain ⟨m, hm, h50⟩ := hlen
  have hnl : ¬ (m < 50) := by omega
  have hfix := clampHours_fix eh h1 h8
  rcases hrl with h | h | h <;> rcases hcs with h2 | h2 | h2 <;> subst h <;> subst h2 <;>
    simp [enhancePlan, pyGet, lookupField, pyInt, upper_LOW, upper_MEDIUM, upper_HIGH,
      enumLMH, hm, hnl, hfix]

/-- Shape facts lifted to the validator loop. -/
theorem validateGo_shape (plans : List Json) : ∀ (i : Nat) (out : List Json),
    validateGo i plans = .ok out →
    ∀ e ∈ out, ∃ pn st tl rl cs eh rr sc,
      e = Json.obj [("plan_name", pn), ("strategy", st), ("timeline", tl),
        ("risk_level", .str rl), ("confidence_score", .str cs),
        ("estimated_hours", .num eh), ("resource_requirements", rr),
        ("success_criteria", sc)] ∧
      isLMH rl ∧ isLMH cs ∧ 1 ≤ eh ∧ eh ≤ 8 ∧
      ∃ m, pyLen st = .ok m ∧ 50 ≤ m := by
  induction plans with
  | nil =>
    intro i out h e he
    simp only [validateGo] at h
    injection h with h
    subst h
    cases he
  | cons p rest ih =>
    intro i out h e he
    simp only [validateGo] at h
    split at h
    · exact Except.noConfusion h
    · rename_i e1 h1
      split at h
      · exact Except.noConfusion h
      · rename_i es h2
        injection h with h
        subst h
        rcases List.mem_cons.mp he with he | he
        · subst he
          exact enhancePlan_shape i p e h1
        · exact ih (i + 1) es h2 e he

/-- C2: every record the validator accepts and emits has a risk level
and a confidence score in the LOW/MEDIUM/HIGH enumeration and an integer
estimated-hours value in the closed interval [1, 8]. -/
theorem C2_validator_field_ranges (plans out : List Json)
    (h : validate_and_enhance_plans plans = .ok out) :
    ∀ e ∈ out, ∃ rl cs eh,
      pyIndex e "risk_level" = .ok (.str rl) ∧ isLMH rl ∧
      pyIndex e "confidence_score" = .ok (.str cs) ∧ isLMH cs ∧
      pyIndex e "estimated_hours" = .ok (.num eh) ∧ 1 ≤ eh ∧ eh ≤ 8 := by
  intro e he
  obtain ⟨pn, st, tl, rl, cs, eh, rr, sc, hE, hrl, hcs, h1, h8, _⟩ :=
    validateGo_shape plans 0 out h e he
  subst hE
  refine ⟨rl, cs, eh, ?_, hrl, ?_, hcs, ?_, h1, h8⟩ <;> simp [pyIndex, lookupField]

/-- Fixpoint property lifted to the validator loop. -/
theorem validateGo_fix (plans : List Json) : ∀ i out, validateGo i plans = .ok out →
    ∀ j, validateGo j out = .ok out := by
  induction plans with
  | nil =>
    intro i out h j
    simp only [validateGo] at h
    injection h with h
    subst h
    rfl
  | cons p rest ih =>
    intro i out h j
    simp only [validateGo] at h
    split at h
    · exact Except.noConfusion h
    · rename_i e1 h1
      split at h
      · exact Except.noConfusion h
      · rename_i es h2
        injection h with h
        subst h
        obtain ⟨pn, st, tl, rl, cs, eh, rr, sc, hE, hrl, hcs, hx1, hx8, hxl⟩ :=
          enhancePlan_shape i p e1 h1
        subst hE
        have hfix := enhancePlan_fixpoint j pn st tl rr sc rl cs eh hrl hcs hx1 hx8 hxl
        have hrest := ih (i + 1) es h2 (j + 1)
        simp [validateGo, hfix, hrest]

/-- C4: the validator is idempotent; re-applying it to its own output
returns that output unchanged, field for field, plan for plan. -/
theorem C4_validator_idempotent (plans out : List Json)
    (h : validate_and_enhance_plans plans = .ok out) :
    validate_and_enhance_plans out = .ok out :=
  validateGo_fix plans 0 out h 0

/-- Demo input for the validator witnesses: one empty plan record. -/
def demoPlans : List Json := [Json.obj []]

/-- Record the validator produces for the empty plan record. -/
def demoEnhanced : Json :=
  Json.obj [("plan_name", .str "Strategic Plan 1"),
    ("strategy", .str default_strategy), ("timeline", .str "2-4 hours"),
    ("risk_level", .str "MEDIUM"), ("confidence_score", .str "MEDIUM"),
    ("estimated_hours", .num 3),
    ("resource_requirements", .str "Security Team, SOC Analyst, Incident Manager"),
    ("success_criteria", .str "Incident resolved successfully with minimal business impact")]

/-- Witness for C2 at the concrete empty plan record. -/
theorem C2_validator_field_ranges_witness :
    ∃ rl cs eh,
      pyIndex demoEnhanced "risk_level" = .ok (.str rl) ∧ isLMH rl ∧
      pyIndex demoEnhanced "confidence_score" = .ok (.str cs) ∧ isLMH cs ∧
      pyIndex demoEnhanced "estimated_hours" = .ok (.num eh) ∧ 1 ≤ eh ∧ eh ≤ 8 :=
  C2_validator_field_ranges demoPlans [demoEnhanced] (by rfl) demoEnhanced (by simp)

/-- Witness for C4 at the concrete empty plan record. -/
theorem C4_validator_idempotent_witness :
    validate_and_enhance_plans [demoEnhanced] = .ok [demoEnhanced] :=
  C4_validator_idempotent demoPlans [demoEnhanced] (by rfl)

/-- Plan records whose used fields carry the JSON types the validator
expects: text for risk, confidence and strategy, an integer for the
estimated hours; every field may also be absent. -/
def WellTypedPlan (p : Json) : Prop :=
  ∃ fs, p = .obj fs ∧
    (∀ v, lookupField fs "risk_level" = some v → ∃ s, v = .str s) ∧
    (∀ v, lookupField fs "confidence_score" = some v → ∃ s, v = .str s) ∧
    (∀ v, lookupField fs "estimated_hours" = some v → ∃ n, v = .num n) ∧
    (∀ v, lookupField fs "strategy" = some v → ∃ s, v = .str s)

/-- Successful results exist whenever an `Except` computation is ok. -/
def isOkE {e a : Type _} : Except e a -> Bool
  | .ok _ => true
  | .error _ => false

/-- Existence of an ok value from the boolean ok test. -/
theorem exists_ok {e a : Type _} (x : Except e a) (h : isOkE x = true) :
    ∃ v, x = .ok v := by
  cases x with
  | error er => simp [isOkE] at h
  | ok v => exact ⟨v, rfl⟩

/-- Validation of one well-typed plan record never fails. -/
theorem enhancePlan_total (i : Nat) (p : Json) (hp : WellTypedPlan p) :
    ∃ e, enhancePlan i p = .ok e := by
  obtain ⟨fs, rfl, hrl, hcs, heh, hst⟩ := hp
  apply exists_ok
  have hRL : ∃ w, (lookupField fs "risk_level").getD (Json.str "MEDIUM") = Json.str w := by
    rcases hL : lookupField fs "risk_level" with _ | v
    · exact ⟨"MEDIUM", by simp [hL]⟩
    · obtain ⟨s, rfl⟩ := hrl v hL
      exact ⟨s, by simp [hL]⟩
  have hCS : ∃ w, (lookupField fs "confidence_score").getD (Json.str "MEDIUM") = Json.str w := by
    rcases hL : lookupField fs "confidence_score" with _ | v
    · exact ⟨"MEDIUM", by simp [hL]⟩
    · obtain ⟨s, rfl⟩ := hcs v hL
      exact ⟨s, by simp [hL]⟩
  have hEH : ∃ w, (lookupField fs "estimated_hours").getD (Json.num 3) = Json.num w := by
    rcases hL : lookupField fs "estimated_hours" with _ | v
    · exact ⟨3, by simp [hL]⟩
    · obtain ⟨n, rfl⟩ := heh v hL
      exact ⟨n, by simp [hL]⟩
  have hST : ∃ w, (lookupField fs "strategy").getD (Json.str default_strategy) = Json.str w := by
    rcases hL : lookupField fs "strategy" with _ | v
    · exact ⟨default_strategy, by simp [hL]⟩
    · obtain ⟨s, rfl⟩ := hst v hL
      exact ⟨s, by simp [hL]⟩
  obtain ⟨w1, hw1⟩ := hRL
  obtain ⟨w2, hw2⟩ := hCS
  obtain ⟨w3, hw3⟩ := hEH
  obtain ⟨w0, hw0⟩ := hST
  by_cases hlt : w0.length < 50 <;>
    simp [enhancePlan, pyGet, hw1, hw2, hw3, hw0, pyUpper, pyInt, pyLen,
      pyAugmentStrategy, isOkE, hlt]

/-- Totality of the validator loop on well-typed plan records. -/
theorem validateGo_total (plans : List Json) : ∀ i, (∀ p ∈ plans, WellTypedPlan p) →
    ∃ out, validateGo i plans = .ok out := by
  induction plans with
  | nil => intro i _; exact ⟨[], rfl⟩
  | cons p rest ih =>
    intro i hall
    obtain ⟨e, he⟩ := enhancePlan_total i p (hall p (by simp))
    obtain ⟨es, hes⟩ := ih (i + 1) (fun q hq => hall q (by simp [hq]))
    exact ⟨e :: es, by simp [validateGo, he, hes]⟩

/-- C8 (amended): the validator returns normally on every list of plan
records whose fields, where present, carry the expected JSON types; the
original claim fails for type-mismatched fields (see the counterexample),
where the dynamic attribute access raises instead of normalizing. -/
theorem C8_validator_total_on_welltyped (plans : List Json)
    (h : ∀ p ∈ plans, WellTypedPlan p) :
    ∃ out, validate_and_enhance_plans plans = .ok out :=
  validateGo_total plans 0 h

/-- Counterexample for C8 as stated: a plan record carrying a number in
`risk_level` makes the validator raise an AttributeError (the Python
`.upper()` call), so the validator does not return normally on every
record the parser can produce. -/
theorem C8_counterexample :
    validate_and_enhance_plans [Json.obj [("risk_level", Json.num 5)]] =
      .error (PyErr.attributeError "upper") := by rfl

/-- Witness for the amended C8 at the concrete empty-field record. -/
theorem C8_validator_total_on_welltyped_witness :
    ∃ out, validate_and_enhance_plans [Json.obj [("timeline", Json.str "1 hour")]] = .ok out :=
  C8_validator_total_on_welltyped [Json.obj [("timeline", Json.str "1 hour")]] (by
    intro p hp
    simp only [List.mem_singleton] at hp
    subst hp
    exact ⟨[("timeline", Json.str "1 hour")], rfl,
      fun v hv => by simp [lookupField] at hv,
      fun v hv => by simp [lookupField] at hv,
      fun v hv => by simp [lookupField] at hv,
      fun v hv => by simp [lookupField] at hv⟩)

/-- Scenario input of C6 (seen by the parser as one JSON object whose
`action_plans` array holds a single plan with only a name). -/
def scenario6 : String := "\x7b\"action_plans\": [\x7b\"plan_name\": \"X\"\x7d]\x7d"

/-- Record the validator actually produces for the C6 scenario plan. -/
def scenario6Enhanced : Json :=
  Json.obj [("plan_name", .str "X"), ("strategy", .str default_strategy),
    ("timeline", .str "2-4 hours"), ("risk_level", .str "MEDIUM"),
    ("confidence_score", .str "MEDIUM"), ("estimated_hours", .num 3),
    ("resource_requirements", .str "Security Team, SOC Analyst, Incident Manager"),
    ("success_criteria", .str "Incident resolved successfully with minimal business impact")]

/-- Counterexample for C6 as stated: on the scenario plan the validator
emits the 94-character default strategy untouched; the appended-sentence
branch does not fire because the default is substituted before the
length-50 check, so the stored strategy does not contain the generated
risk-level sentence and the length seen by the check is not 0 < 50. -/
theorem C6_counterexample :
    validate_and_enhance_plans [Json.obj [("plan_name", Json.str "X")]] =
      .ok [scenario6Enhanced] ∧
    hasSub (riskSentence "MEDIUM").data default_strategy.data = false ∧
    ¬ default_strategy.data.length < 50 :=
  ⟨rfl, rfl, by decide⟩

/-- C6 (amended): the parser succeeds on the scenario input, and the
validator fills `strategy` with the default text, `timeline`,
`risk_level = MEDIUM`, `confidence_score = MEDIUM` and the default
`estimated_hours = 3`; no sentence is appended because the just-defaulted
strategy already has length at least 50. -/
theorem C6_scenario_amended :
    parseJson scenario6 =
      .ok (Json.obj [("action_plans", Json.arr [Json.obj [("plan_name", Json.str "X")]])]) ∧
    validate_and_enhance_plans [Json.obj [("plan_name", Json.str "X")]] =
      .ok [scenario6Enhanced] ∧
    50 ≤ default_strategy.data.length :=
  ⟨rfl, rfl, by decide⟩

/-- Incident row (only the columns the modelled commands touch). -/
structure IncidentRow where
  id : Nat
  status : String

/-- ActionPlan row.  The text columns (name, strategy, timeline, ...) are
typed strings in the schema and feed only the prompt sent to the external
model boundary, which the oracle below abstracts, so they are omitted. -/
structure PlanRow where
  id : Nat
  incident : Nat
  is_selected : Bool
  status : String

/-- Action row as created by `create_action_records`: the field values are
whatever JSON the parsed response carried (or the static defaults). -/
structure ActionRow where
  id : Nat
  action_plan : Nat
  incident : Nat
  step : Nat
  title : Json
  description : Json
  operator : Json
  priority : Json
  estimated_hours : Json
  ghostdraft : Bool

/-- Deliverable row. -/
structure DelivRow where
  action : Nat
  deliverable_format : Json
  export_options : Json
  voice_eligible : Json
  content : String

/-- Database state: the persisted tables plus a fresh-id counter for
actions. -/
structure DB where
  incidents : List IncidentRow
  plans : List PlanRow
  actions : List ActionRow
  delivs : List DelivRow
  nextAid : Nat

/-- Oracle for the external boundaries: the credential lookup and one
response per chat-completion call site (indexed per action for the
deliverable calls); `none` means the call raised. -/
structure AIEnv where
  apiKey : Option String
  actionsResp : Option String
  needDocResp : Nat → Option String
  formatResp : Nat → Option String
  docResp : Nat → Option String

/-- Lookup `ActionPlan.objects.get(id=plan_id)`. -/
def findPlan (db : DB) (pid : Nat) : Option PlanRow :=
  db.plans.find? (fun p => p.id == pid)

/-- Selection flag update shared by the endpoint and the command:
`update(is_selected=False)` over all plans of the incident, then the
chosen plan saved with `is_selected=True` and status SELECTED. -/
def selectPlanRows (plans : List PlanRow) (inc pid : Nat) : List PlanRow :=
  plans.map (fun q =>
    if q.incident = inc then
      (if q.id = pid then { q with is_selected := true, status := "SELECTED" }
       else { q with is_selected := false })
    else q)

/-- One plan-selection state change (no-op when the plan id is unknown,
matching the surfaced not-found error). -/
def selectPlan (db : DB) (pid : Nat) : DB :=
  match findPlan db pid with
  | none => db
  | some p => { db with plans := selectPlanRows db.plans p.incident pid }

/-- Static fallback actions of `get_fallback_actions`. -/
def fallback_actions : List Json :=
  [Json.obj [("title", .str "Assess Incident Scope"),
     ("description", .str "Evaluate the full extent and impact of the security incident"),
     ("operator", .str "Security Analyst"), ("priority", .str "Critical"),
     ("estimated_hours", .num 1)],
   Json.obj [("title", .str "Implement Containment"),
     ("description", .str "Deploy containment measures to prevent further damage"),
     ("operator", .str "Security Team"), ("priority", .str "High"),
     ("estimated_hours", .num 2)],
   Json.obj [("title", .str "Notify Stakeholders"),
     ("description", .str "Communicate incident status to relevant stakeholders"),
     ("operator", .str "Communications Team"), ("priority", .str "High"),
     ("estimated_hours", .num 1)],
   Json.obj [("title", .str "Collect Technical Evidence"),
     ("description", .str "Gather forensic evidence from affected systems"),
     ("operator", .str "Forensics Expert"), ("priority", .str "Medium"),
     ("estimated_hours", .num 3)]]

/-- Python `key in value` membership for the shapes `json.loads` returns. -/
def pyInOp (k : String) (v : Json) : Except PyErr Bool :=
  match v with
  | .obj fs => .ok (lookupField fs k).isSome
  | .arr xs => .ok (xs.any (fun x => match x with | .str s => s == k | _ => false))
  | .str s => .ok (hasSub k.data s.data)
  | _ => .error (.typeError "membership")

/-- Python slice `value[:6]`. -/
def pySlice6 (v : Json) : Except PyErr Json :=
  match v with
  | .arr xs => .ok (.arr (xs.take 6))
  | .str s => .ok (.str (String.mk (s.data.take 6)))
  | _ => .error (.typeError "slice")

/-- Model of `generate_actions_from_plan` (the method): the model reply is
parsed with a plain `json.loads`; on success with an `actions` key the
first six entries are returned, and every failure (call raised, parse
error, missing key, bad membership or slice) yields the static fallback
list. -/
def generate_actions (env : AIEnv) : Json :=
  match env.actionsResp with
  | none => Json.arr fallback_actions
  | some s =>
    match parseJson s with
    | .error _ => Json.arr fallback_actions
    | .ok parsed =>
      match pyInOp "actions" parsed with
      | .error _ => Json.arr fallback_actions
      | .ok false => Json.arr fallback_actions
      | .ok true =>
        match pyIndex parsed "actions" with
        | .error _ => Json.arr fallback_actions
        | .ok v =>
          match pySlice6 v with
          | .error _ => Json.arr fallback_actions
          | .ok sliced => sliced

/-- Enumeration of a Python iterable as the loop of
`create_action_records` sees it (`generate_actions` only produces lists
or strings; other shapes cannot reach the loop). -/
def toElems (v : Json) : List Json :=
  match v with
  | .arr xs => xs
  | .str s => s.data.map (fun c => Json.str (String.mk [c]))
  | _ => []

/-- Construction of one Action row (the `Action.objects.create` call with
its `.get` defaults); fails exactly when the entry is not a dict. -/
def mkAction (aid : Nat) (plan : PlanRow) (i : Nat) (e : Json) : Except PyErr ActionRow :=
  match pyGet e "title" (.str ("Action " ++ Nat.repr i)) with
  | .error er => .error er
  | .ok t =>
  match pyGet e "description" (.str "Action description") with
  | .error er => .error er
  | .ok d =>
  match pyGet e "operator" (.str "Security Team") with
  | .error er => .error er
  | .ok op =>
  match pyGet e "priority" (.str "Medium") with
  | .error er => .error er
  | .ok pr =>
  match pyGet e "estimated_hours" (.num 2) with
  | .error er => .error er
  | .ok eh =>
  .ok { id := aid, action_plan := plan.id, incident := plan.incident, step := i,
        title := t, description := d, operator := op, priority := pr,
        estimated_hours := eh, ghostdraft := true }

/-- Loop of `create_action_records`: `enumerate(actions_data, 1)` with a
per-entry try/except that skips failing entries but still advances the
step counter. -/
def create_action_records (plan : PlanRow) : DB → Nat → List Json → DB × List ActionRow
  | db, _, [] => (db, [])
  | db, i, e :: rest =>
    match mkAction db.nextAid plan i e with
    | .ok a =>
      let db2 := { db with actions := db.actions ++ [a], nextAid := db.nextAid + 1 }
      let pr := create_action_records plan db2 (i + 1) rest
      (pr.1, a :: pr.2)
    | .error _ => create_action_records plan db (i + 1) rest

/-- Comma-separated join. -/
def commaSep : List String → String
  | [] => ""
  | [x] => x
  | x :: rest => x ++ ", " ++ commaSep rest

/-- Python `str()` of a parsed-JSON value as used inside f-strings
(container rendering schematic; the repository only interpolates strings
and numbers into the texts that reach persisted state). -/
def pyStrJ : Nat → Json → String
  | _, .null => "None"
  | _, .bool b => if b then "True" else "False"
  | _, .num n => toString n
  | _, .str s => s
  | 0, .arr _ => ""
  | 0, .obj _ => ""
  | fuel + 1, .arr xs => "[" ++ commaSep (xs.map (pyStrJ fuel)) ++ "]"
  | fuel + 1, .obj fs => "\x7b" ++ commaSep (fs.map (fun kv => kv.1 ++ ": " ++ pyStrJ fuel kv.2)) ++ "\x7d"

/-- Keyword test of the fallback role dispatch: any listed word occurring
as a substring. -/
def anyWordIn (ws : List String) (s : String) : Bool :=
  ws.any (fun w => hasSub w.data s.data)

/-- Model of `determine_format_fallback`: deterministic keyword-based
expert-role assignment over the lowercased title and description. -/
def determine_format_fallback (a : ActionRow) : Except PyErr Json :=
  match pyLower a.title with
  | .error er => .error er
  | .ok titleL =>
  match (if pyTruthy a.description then pyLower a.description else .ok "") with
  | .error er => .error er
  | .ok descL =>
  let combined := titleL ++ " " ++ descL
  if anyWordIn ["communication", "notify", "stakeholder", "announce", "inform", "alert", "message", "contact"] combined then
    .ok (Json.obj [("expert_role", .str "Communications Expert"), ("format", .str "HTML"),
      ("voice_eligible", .bool true), ("export_options", .str "PDF,Email,Voice"),
      ("reasoning", .str "Action involves stakeholder communication requiring accessible formats")])
  else if anyWordIn ["technical", "forensic", "system", "configure", "implement", "deploy", "analyze", "investigate"] combined then
    .ok (Json.obj [("expert_role", .str "Technical Specialist"), ("format", .str "HTML"),
      ("voice_eligible", .bool false), ("export_options", .str "PDF,Email"),
      ("reasoning", .str "Technical action requires detailed documentation with technical specifications")])
  else if anyWordIn ["legal", "compliance", "regulatory", "report", "audit", "breach"] combined then
    .ok (Json.obj [("expert_role", .str "Legal Compliance Expert"), ("format", .str "HTML"),
      ("voice_eligible", .bool false), ("export_options", .str "PDF,Email"),
      ("reasoning", .str "Action involves legal/compliance requirements needing formal documentation")])
  else if anyWordIn ["executive", "leadership", "board", "strategic", "decision"] combined then
    .ok (Json.obj [("expert_role", .str "Executive Advisor"), ("format", .str "HTML"),
      ("voice_eligible", .bool true), ("export_options", .str "PDF,Email,Voice"),
      ("reasoning", .str "Executive-level action requiring strategic perspective and clear communication")])
  else if anyWordIn ["business", "continuity", "operational", "process", "workflow"] combined then
    .ok (Json.obj [("expert_role", .str "Business Continuity Manager"), ("format", .str "HTML"),
      ("voice_eligible", .bool true), ("export_options", .str "PDF,Email,Voice"),
      ("reasoning", .str "Business continuity action requiring operational perspective")])
  else
    .ok (Json.obj [("expert_role", .str "Incident Response Specialist"), ("format", .str "HTML"),
      ("voice_eligible", .bool true), ("export_options", .str "PDF,Email,Voice"),
      ("reasoning", .str "General incident response action requiring coordination expertise")])

/-- Fallback decision record of `ai_decide_documentation_need`. -/
def fallback_need : Json :=
  Json.obj [("create_deliverable", .bool true), ("reason", .str "Fallback - ensuring coverage"),
    ("importance_score", .num 7)]

/-- Model of `ai_decide_documentation_need`: the parsed model reply, or
the always-create fallback on any exception. -/
def ai_decide_documentation_need (env : AIEnv) (j : Nat) : Json :=
  match env.needDocResp j with
  | none => fallback_need
  | some s =>
    match parseJson s with
    | .ok v => v
    | .error _ => fallback_need

/-- Model of `ai_determine_deliverable_format`: the parsed model reply,
or the keyword fallback on any exception (which itself may raise on
non-string fields). -/
def ai_determine_deliverable_format (env : AIEnv) (j : Nat) (a : ActionRow) : Except PyErr Json :=
  match env.formatResp j with
  | none => determine_format_fallback a
  | some s =>
    match parseJson s with
    | .ok v => .ok v
    | .error _ => determine_format_fallback a

/-- Text of `enhance_documentation_content`, appended to short model
output before the formatted-content step (whose failure, see below,
discards it). -/
def enhance_documentation_content (a : ActionRow) (expert_role : String) : String :=
  "\n\nDETAILED IMPLEMENTATION METHODOLOGY:\n\nAs a " ++ expert_role ++
  ", the implementation of " ++ pyStrJ 1000 a.title ++
  " requires a systematic approach that considers both immediate tactical requirements and long-term strategic implications for the organization\x27s security posture.\n\nPHASE 1: PREPARATION AND ASSESSMENT (Detailed)\n- Comprehensive review of current incident status and impact assessment\n- Detailed evaluation of available resources and personnel\n- Thorough assessment of technical requirements and dependencies\n- Complete review of applicable policies and procedures\n- Detailed risk assessment specific to this action\n- Comprehensive stakeholder identification and communication planning\n\nPHASE 2: EXECUTION METHODOLOGY (Comprehensive)\n- Step-by-step implementation procedures with detailed checkpoints\n- Continuous monitoring and progress assessment protocols\n- Real-time documentation and evidence collection procedures\n- Quality assurance measures and validation checkpoints\n- Escalation procedures and decision trees\n- Communication protocols for status updates and issue reporting\n\nPHASE 3: VALIDATION AND CLOSURE (Thorough)\n- Comprehensive testing and validation procedures\n- Detailed success criteria verification\n- Complete documentation review and finalization\n- Thorough handoff procedures to next phase or team\n- Comprehensive lessons learned documentation\n- Detailed post-action report preparation\n\nRISK MANAGEMENT FRAMEWORK:\nFrom a " ++
  pyLowerStr expert_role ++
  " perspective, this action involves multiple risk categories that must be carefully managed throughout the implementation process.\n\nTECHNICAL RISKS:\n- System availability and performance impacts\n- Data integrity and confidentiality considerations\n- Integration dependencies and compatibility issues\n- Resource utilization and capacity constraints\n\nOPERATIONAL RISKS:\n- Personnel availability and skill requirements\n- Time constraints and scheduling dependencies\n- Communication and coordination challenges\n- Process integration and workflow impacts\n\nCOMPLIANCE RISKS:\n- Regulatory reporting requirements\n- Legal and contractual obligations\n- Industry standard compliance requirements\n- Organizational policy adherence\n\nBUSINESS RISKS:\n- Service delivery and customer impact\n- Revenue and financial implications\n- Reputation and stakeholder confidence\n- Competitive advantage considerations\n\nQUALITY ASSURANCE PROCEDURES:\nComprehensive quality assurance measures ensure that all aspects of this action meet professional standards and organizational requirements.\n\nDOCUMENTATION QUALITY:\n- Complete and accurate technical specifications\n- Thorough procedural documentation\n- Comprehensive risk assessments\n- Detailed testing and validation results\n\nPROCESS QUALITY:\n- Adherence to established methodologies\n- Compliance with organizational standards\n- Integration with existing workflows\n- Alignment with strategic objectives\n\nOUTCOME QUALITY:\n- Achievement of defined success criteria\n- Validation of expected results\n- Confirmation of risk mitigation\n- Verification of compliance requirements"

/-- Model of `generate_adaptive_documentation_enhanced`.  The attempted
body runs: `specs['expert_role']` subscript, the guard-statement
`action.title.lower()`, the prompt interpolation `expert_role.upper()`,
then the model call; when the raw output is under 2000 characters the
enhancement text is appended.  The f-string that would build
`formatted_content` reads `len(formatted_content)` before the name is
bound (source line `Content Length: ...`), so the attempt always raises
UnboundLocalError after evaluating `specs['format']` and
`specs['voice_eligible']`.  The handler then calls
`self.generate_comprehensive_fallback_documentation`, but that function
is defined at module level, not on the command class, so the handler
itself raises AttributeError, which is what the caller sees. -/
def generate_adaptive_documentation_enhanced (env : AIEnv) (j : Nat) (a : ActionRow)
    (specs : Json) : Except PyErr String :=
  let attempt : Except PyErr String :=
    match pyIndex specs "expert_role" with
    | .error er => .error er
    | .ok erV =>
      match pyLower a.title with
      | .error er => .error er
      | .ok _ =>
        match erV with
        | .str expert_role =>
          match env.docResp j with
          | none => .error .externalError
          | some content =>
            let ai := if content.length < 2000
              then content ++ enhance_documentation_content a expert_role
              else content
            match pyIndex specs "format" with
            | .error er => .error er
            | .ok _ =>
              match pyIndex specs "voice_eligible" with
              | .error er => .error er
              | .ok _ =>
                let _ := ai
                .error (.unboundLocalError "formatted_content")
        | _ => .error (.attributeError "upper")
  match attempt with
  | .ok s => .ok s
  | .error _ => .error (.attributeError "generate_comprehensive_fallback_documentation")

/-- Deliverable processing for one action (the body of the per-action
try/except of `process_smart_deliverables`): any raised error leaves the
state of that iteration as already persisted and moves on. -/
def processOne (env : AIEnv) (db : DB) (j : Nat) (a : ActionRow) : DB :=
  let nd := ai_decide_documentation_need env j
  match pyIndex nd "create_deliverable" with
  | .error _ => db
  | .ok flag =>
    if pyTruthy flag then
      match ai_determine_deliverable_format env j a with
      | .error _ => db
      | .ok specs =>
        match pyIndex specs "expert_role" with
        | .error _ => db
        | .ok _ =>
        match pyIndex specs "format" with
        | .error _ => db
        | .ok fmt =>
        match pyIndex specs "export_options" with
        | .error _ => db
        | .ok eo =>
        match pyIndex specs "voice_eligible" with
        | .error _ => db
        | .ok ve =>
          let row : DelivRow :=
            { action := a.id, deliverable_format := fmt,
              export_options := eo, voice_eligible := ve, content := "" }
          let db2 := { db with delivs := db.delivs ++ [row] }
          match generate_adaptive_documentation_enhanced env j a specs with
          | .error _ => db2
          | .ok content =>
            { db2 with delivs := db2.delivs.dropLast ++ [{ row with content := content }] }
    else
      -- the skip branch prints needs_documentation['reason']; a KeyError
      -- there is caught by the same per-action handler and changes nothing
      db

/-- Loop of `process_smart_deliverables` over the created actions. -/
def processDelivs (env : AIEnv) : DB → Nat → List ActionRow → DB
  | db, _, [] => db
  | db, j, a :: rest => processDelivs env (processOne env db j a) (j + 1) rest

/-- Status write `incident.status = s; incident.save()`. -/
def setIncidentStatus (db : DB) (inc : Nat) (s : String) : DB :=
  { db with incidents := db.incidents.map (fun r => if r.id = inc then { r with status := s } else r) }

/-- Model of `Command.handle` of `generate_actions_from_plan`: plan
lookup, selection-flag update, credential check (early return when the
key is missing), action generation, empty-check early return, action
persistence, deliverable processing, status transition. -/
def handle (env : AIEnv) (db : DB) (pid : Nat) : DB :=
  match findPlan db pid with
  | none => db
  | some plan =>
    let db1 := { db with plans := selectPlanRows db.plans plan.incident pid }
    match env.apiKey with
    | none => db1
    | some _ =>
      let actionsData := generate_actions env
      if pyTruthy actionsData = false then db1
      else
        let pr := create_action_records plan db1 1 (toElems actionsData)
        let db3 := processDelivs env pr.1 0 pr.2
        setIncidentStatus db3 plan.incident "ACTIONS_GENERATED"

/-- Model of the `select_action_plan` endpoint: reject a falsy or unknown
plan id without state change, otherwise update the selection flags and
invoke the action-generation command. -/
def select_action_plan_view (env : AIEnv) (db : DB) (pid : Nat) : DB :=
  if pid = 0 then db
  else
    match findPlan db pid with
    | none => db
    | some plan =>
      let db1 := { db with plans := selectPlanRows db.plans plan.incident pid }
      handle env db1 pid

/-- Sequential application of plan-selection operations (each entry:
oracle, endpoint-or-command switch, plan id). -/
def applySelOps : DB → List (AIEnv × Bool × Nat) → DB
  | db, [] => db
  | db, (env, viaView, pid) :: rest =>
    applySelOps (if viaView then select_action_plan_view env db pid else handle env db pid) rest

/-- At most one selected ActionPlan for the given incident. -/
def atMostOneSelected (plans : List PlanRow) (inc : Nat) : Prop :=
  (plans.filter (fun q => q.incident == inc && q.is_selected)).length ≤ 1

/-- Selection rewrites rows in place: the plan ids are unchanged. -/
theorem selectRows_ids (plans : List PlanRow) (inc pid : Nat) :
    (selectPlanRows plans inc pid).map (fun q => q.id) = plans.map (fun q => q.id) := by
  unfold selectPlanRows
  rw [List.map_map]
  apply List.map_congr_left
  intro q _
  by_cases h1 : q.incident = inc
  · by_cases h2 : q.id = pid <;> simp [h1, h2]
  · simp [h1]

/-- With globally distinct plan ids, at most one row matches a given id. -/
theorem filter_id_le_one (plans : List PlanRow) (pid : Nat)
    (h : (plans.map (fun q => q.id)).Nodup) :
    (plans.filter (fun q => q.id == pid)).length ≤ 1 := by
  induction plans with
  | nil => simp
  | cons q rest ih =>
    rw [List.map_cons, List.nodup_cons] at h
    by_cases hq : q.id = pid
    · have hnil : rest.filter (fun r => r.id == pid) = [] := by
        rw [List.filter_eq_nil_iff]
        intro r hr
        simp only [beq_iff_eq]
        intro he
        exact h.1 (by rw [hq, ← he]; exact List.mem_map_of_mem _ hr)
      simp [List.filter_cons, hq, hnil]
    · simp only [List.filter_cons, beq_iff_eq, hq]
      simpa using ih h.2

/-- One selection step leaves at most one selected plan per incident:
the touched incident has at most one row carrying the chosen id, and
other incidents are untouched. -/
theorem selectRows_atMostOne (plans : List PlanRow) (inc pid incT : Nat)
    (hnd : (plans.map (fun q => q.id)).Nodup)
    (hprev : atMostOneSelected plans incT) :
    atMostOneSelected (selectPlanRows plans inc pid) incT := by
  unfold atMostOneSelected at *
  rw [← List.countP_eq_length_filter] at *
  unfold selectPlanRows
  rw [List.countP_map]
  by_cases hC : inc = incT
  · subst hC
    calc (plans.countP fun q =>
          ((fun q => q.incident == inc && q.is_selected) ∘ fun q =>
            if q.incident = inc then
              (if q.id = pid then { q with is_selected := true, status := "SELECTED" }
               else { q with is_selected := false })
            else q) q)
        ≤ plans.countP (fun q => q.id == pid) := by
          apply List.countP_mono_left
          intro q _ hp
          by_cases h1 : q.incident = inc
          · by_cases h2 : q.id = pid
            · simpa using h2
            · simp [h1, h2] at hp
          · simp [h1] at hp
      _ ≤ 1 := by
          rw [List.countP_eq_length_filter]
          exact filter_id_le_one plans pid hnd
  · calc (plans.countP fun q =>
          ((fun q => q.incident == incT && q.is_selected) ∘ fun q =>
            if q.incident = inc then
              (if q.id = pid then { q with is_selected := true, status := "SELECTED" }
               else { q with is_selected := false })
            else q) q)
        = plans.countP (fun q => q.incident == incT && q.is_selected) := by
          apply List.countP_congr
          intro q _
          by_cases h1 : q.incident = inc
          · by_cases h2 : q.id = pid <;> simp [h1, h2, hC]
          · simp [h1]
      _ ≤ 1 := hprev

/-- Action persistence only appends to the actions table (plans,
incidents and deliverables untouched; actions grow by the created list). -/
theorem car_state (plan : PlanRow) (es : List Json) : ∀ (db : DB) (i : Nat),
    (create_action_records plan db i es).1.plans = db.plans ∧
    (create_action_records plan db i es).1.incidents = db.incidents ∧
    (create_action_records plan db i es).1.delivs = db.delivs ∧
    (create_action_records plan db i es).1.actions = db.actions ++ (create_action_records plan db i es).2 := by
  induction es with
  | nil => intro db i; simp [create_action_records]
  | cons e rest ih =>
    intro db i
    simp only [create_action_records]
    cases hm : mkAction db.nextAid plan i e with
    | error er => simpa using ih db (i + 1)
    | ok a =>
      have := ih { db with actions := db.actions ++ [a], nextAid := db.nextAid + 1 } (i + 1)
      simp only at this
      simp only [List.append_assoc] at this ⊢
      exact ⟨this.1, this.2.1, this.2.2.1, by rw [this.2.2.2]; simp⟩

/-- Deliverable processing of one action never touches plans, incidents
or actions. -/
theorem processOne_state (env : AIEnv) (db : DB) (j : Nat) (a : ActionRow) :
    (processOne env db j a).plans = db.plans ∧
    (processOne env db j a).incidents = db.incidents ∧
    (processOne env db j a).actions = db.actions := by
  refine ⟨?_, ?_, ?_⟩ <;> (unfold processOne; dsimp only; repeat' split) <;> rfl

/-- Deliverable processing never touches plans, incidents or actions. -/
theorem processDelivs_state (env : AIEnv) (as : List ActionRow) : ∀ (db : DB) (j : Nat),
    (processDelivs env db j as).plans = db.plans ∧
    (processDelivs env db j as).incidents = db.incidents ∧
    (processDelivs env db j as).actions = db.actions := by
  induction as with
  | nil => intro db j; exact ⟨rfl, rfl, rfl⟩
  | cons a rest ih =>
    intro db j
    have h1 := processOne_state env db j a
    have h2 := ih (processOne env db j a) (j + 1)
    simp only [processDelivs]
    exact ⟨h2.1.trans h1.1, h2.2.1.trans h1.2.1, h2.2.2.trans h1.2.2⟩

/-- Plans as seen after the whole command equal the plans after the
selection step alone. -/
theorem handle_plans (env : AIEnv) (db : DB) (pid : Nat) :
    (handle env db pid).plans = (selectPlan db pid).plans := by
  unfold handle selectPlan
  cases hf : findPlan db pid with
  | none => rfl
  | some plan =>
    cases hk : env.apiKey with
    | none => rfl
    | some k =>
      cases htv : pyTruthy (generate_actions env) with
      | false => simp [htv]
      | true =>
        simp only [htv]
        simp only [Bool.true_eq_false, if_false, setIncidentStatus]
        have hpd := processDelivs_state env
          (create_action_records plan { db with plans := selectPlanRows db.plans plan.incident pid } 1 (toElems (generate_actions env))).2
          (create_action_records plan { db with plans := selectPlanRows db.plans plan.incident pid } 1 (toElems (generate_actions env))).1 0
        have hca := car_state plan (toElems (generate_actions env))
          { db with plans := selectPlanRows db.plans plan.incident pid } 1
        rw [hpd.1, hca.1]

/-- Plans as seen after the endpooint equal the plans after applying the
selection twice (once in the view, once in the command it invokes). -/
theorem view_plans (env : AIEnv) (db : DB) (pid : Nat) :
    (select_action_plan_view env db pid).plans =
      if pid = 0 then db.plans else (handle env (selectPlan db pid) pid).plans := by
  unfold select_action_plan_view
  by_cases h0 : pid = 0
  · subst h0
    rfl
  · rw [if_neg h0, if_neg h0]
    cases hf : findPlan db pid with
    | none => simp [selectPlan, handle, hf]
    | some plan => simp [selectPlan, hf]

/-- One selection step keeps plan ids distinct and the invariant intact. -/
theorem selectPlan_good (db : DB) (pid inc : Nat)
    (hnd : (db.plans.map (fun q => q.id)).Nodup)
    (hinv : atMostOneSelected db.plans inc) :
    ((selectPlan db pid).plans.map (fun q => q.id)).Nodup ∧
      atMostOneSelected (selectPlan db pid).plans inc := by
  unfold selectPlan
  cases hf : findPlan db pid with
  | none => exact ⟨hnd, hinv⟩
  | some p =>
    refine ⟨?_, selectRows_atMostOne db.plans p.incident pid inc hnd hinv⟩
    rw [selectRows_ids]
    exact hnd

/-- One operation of either call site keeps plan ids distinct and the
invariant intact. -/
theorem selOp_good (env : AIEnv) (viaView : Bool) (pid : Nat) (db : DB) (inc : Nat)
    (hnd : (db.plans.map (fun q => q.id)).Nodup)
    (hinv : atMostOneSelected db.plans inc) :
    (((if viaView then select_action_plan_view env db pid else handle env db pid).plans.map (fun q => q.id)).Nodup ∧
      atMostOneSelected (if viaView then select_action_plan_view env db pid else handle env db pid).plans inc) := by
  cases viaView with
  | false =>
    rw [if_neg (show ¬(false = true) by decide)]
    rw [handle_plans]
    exact selectPlan_good db pid inc hnd hinv
  | true =>
    rw [if_pos (show true = true from rfl)]
    rw [view_plans]
    by_cases h0 : pid = 0
    · simp only [h0, if_true]
      exact ⟨hnd, hinv⟩
    · simp only [h0, if_false]
      rw [handle_plans]
      have h1 := selectPlan_good db pid inc hnd hinv
      exact selectPlan_good (selectPlan db pid) pid inc h1.1 h1.2

/-- Sequences of operations keep plan ids distinct and the invariant. -/
theorem selOps_good (ops : List (AIEnv × Bool × Nat)) : ∀ (db : DB) (inc : Nat),
    (db.plans.map (fun q => q.id)).Nodup → atMostOneSelected db.plans inc →
    (((applySelOps db ops).plans.map (fun q => q.id)).Nodup ∧
      atMostOneSelected (applySelOps db ops).plans inc) := by
  induction ops with
  | nil => intro db inc hnd hinv; exact ⟨hnd, hinv⟩
  | cons op rest ih =>
    intro db inc hnd hinv
    obtain ⟨env, viaView, pid⟩ := op
    have hstep := selOp_good env viaView pid db inc hnd hinv
    exact ih _ inc hstep.1 hstep.2

/-- After one selection targeting an existing plan, a sibling row of the
same incident is selected exactly when it carries the chosen id. -/
theorem selectRows_sets (plans : List PlanRow) (inc pid : Nat) (q : PlanRow)
    (hq : q ∈ selectPlanRows plans inc pid) (hinc : q.incident = inc) :
    (q.is_selected = true ↔ q.id = pid) := by
  unfold selectPlanRows at hq
  obtain ⟨q0, _, hq0⟩ := List.mem_map.mp hq
  by_cases h1 : q0.incident = inc
  · by_cases h2 : q0.id = pid
    · rw [if_pos h1, if_pos h2] at hq0
      subst hq0
      simpa using h2
    · rw [if_pos h1, if_neg h2] at hq0
      subst hq0
      simpa using h2
  · rw [if_neg h1] at hq0
    subst hq0
    exact absurd hinc h1

/-- C3: with distinct plan ids and the invariant initially intact, after
any sequence of plan-selection operations (the select-plan endpoint or
the generate-actions command, each on any plan id, under any oracle) at
most one ActionPlan of the incident has `is_selected = true`; moreover
each single selection step on an existing plan leaves exactly the chosen
sibling selected: a same-incident row is selected iff it carries the
chosen id, so all other siblings are cleared. -/
theorem C3_at_most_one_selected (db : DB) (ops : List (AIEnv × Bool × Nat)) (inc : Nat)
    (hnd : (db.plans.map (fun q => q.id)).Nodup)
    (hinv : atMostOneSelected db.plans inc) :
    atMostOneSelected (applySelOps db ops).plans inc ∧
    (∀ pid p, findPlan db pid = some p →
      ∀ q ∈ (selectPlan db pid).plans, q.incident = p.incident →
        (q.is_selected = true ↔ q.id = pid)) := by
  refine ⟨(selOps_good ops db inc hnd hinv).2, ?_⟩
  intro pid p hp q hq hqi
  unfold selectPlan at hq
  rw [hp] at hq
  exact selectRows_sets db.plans p.incident pid q hq hqi

/-- Oracle with no credentials and no responses (every call raises). -/
def env0 : AIEnv :=
  { apiKey := none, actionsResp := none, needDocResp := fun _ => none,
    formatResp := fun _ => none, docResp := fun _ => none }

/-- Concrete database for the C3 witness: one incident with two
unselected plans. -/
def dbC3 : DB :=
  { incidents := [⟨1, "AWAITING_PLAN_SELECTION"⟩],
    plans := [⟨1, 1, false, "GENERATED"⟩, ⟨2, 1, false, "GENERATED"⟩],
    actions := [], delivs := [], nextAid := 1 }

/-- Witness for C3: command-selection of plan 1 followed by
endpoint-selection of plan 2 on the same incident. -/
theorem C3_at_most_one_selected_witness :
    atMostOneSelected (applySelOps dbC3 [(env0, false, 1), (env0, true, 2)]).plans 1 ∧
    (∀ pid p, findPlan dbC3 pid = some p →
      ∀ q ∈ (selectPlan dbC3 pid).plans, q.incident = p.incident →
        (q.is_selected = true ↔ q.id = pid)) :=
  C3_at_most_one_selected dbC3 [(env0, false, 1), (env0, true, 2)] 1
    (by decide) (by unfold atMostOneSelected; decide)

/-- Status of an incident row. -/
def incidentStatus (db : DB) (inc : Nat) : Option String :=
  (db.incidents.find? (fun r => r.id == inc)).map (fun r => r.status)

/-- C5 (amended): with no API key, `generate_actions_from_plan` marks the
plan selected and then returns early: no Action rows are created (whether
fallback or not) and no incident status changes; the static fallback is
reached only after a client object exists. -/
theorem C5_missing_credentials_no_fallback (env : AIEnv) (db : DB) (pid : Nat)
    (hk : env.apiKey = none) :
    (handle env db pid).actions = db.actions ∧
    (handle env db pid).incidents = db.incidents ∧
    (handle env db pid).plans = (selectPlan db pid).plans := by
  refine ⟨?_, ?_, handle_plans env db pid⟩ <;>
    (unfold handle; cases hf : findPlan db pid with
     | none => rfl
     | some plan => simp [hk])

/-- Counterexample for C5 as stated: with the API key missing, the
command selects the plan but creates no fallback Action rows and leaves
the incident in AWAITING_PLAN_SELECTION instead of ACTIONS_GENERATED. -/
theorem C5_counterexample :
    (handle env0 dbC3 1).actions = [] ∧
    incidentStatus (handle env0 dbC3 1) 1 = some "AWAITING_PLAN_SELECTION" ∧
    (handle env0 dbC3 1).plans = [⟨1, 1, true, "SELECTED"⟩, ⟨2, 1, false, "GENERATED"⟩] :=
  ⟨rfl, rfl, rfl⟩

/-- Witness for the amended C5 at the concrete no-key oracle. -/
theorem C5_missing_credentials_no_fallback_witness :
    (handle env0 dbC3 1).actions = dbC3.actions ∧
    (handle env0 dbC3 1).incidents = dbC3.incidents ∧
    (handle env0 dbC3 1).plans = (selectPlan dbC3 1).plans :=
  C5_missing_credentials_no_fallback env0 dbC3 1 (by rfl)

/-- A sliced value enumerates to at most six entries. -/
theorem slice6_le (v sliced : Json) (h : pySlice6 v = .ok sliced) :
    (toElems sliced).length ≤ 6 := by
  cases v with
  | arr xs =>
    simp only [pySlice6, Except.ok.injEq] at h
    subst h
    simp [toElems, List.length_take]
  | str s =>
    simp only [pySlice6, Except.ok.injEq] at h
    subst h
    simp [toElems, List.length_take]
  | null => simp [pySlice6] at h
  | bool b => simp [pySlice6] at h
  | num n => simp [pySlice6] at h
  | obj fs => simp [pySlice6] at h

/-- The action-generation step yields at most six entries (four from the
static fallback, otherwise the first six of the model reply). -/
theorem gen_actions_le6 (env : AIEnv) : (toElems (generate_actions env)).length ≤ 6 := by
  unfold generate_actions
  repeat' split
  all_goals first
    | (rename_i sliced hsl; exact slice6_le _ sliced hsl)
    | simp [toElems, fallback_actions]

/-- On all-dict entries the persistence loop skips nothing: it creates
one row per entry with consecutive steps starting at `i`. -/
theorem car_objs (plan : PlanRow) (es : List Json) : ∀ (db : DB) (i : Nat),
    (∀ e ∈ es, ∃ fs, e = Json.obj fs) →
    (create_action_records plan db i es).2.map (fun a => a.step) = List.range' i es.length := by
  induction es with
  | nil => intro db i _; rfl
  | cons e rest ih =>
    intro db i hall
    obtain ⟨fs, rfl⟩ := hall e (by simp)
    simp only [create_action_records, mkAction, pyGet, List.map_cons, List.length_cons]
    exact congrArg (List.cons i) (ih _ (i + 1) (fun q hq => hall q (by simp [hq])))

/-- Writing a status rewrites exactly the matching incident rows under
lookup. -/
theorem find_set_status (l : List IncidentRow) (inc : Nat) (s : String) :
    (l.map (fun r => if r.id = inc then { r with status := s } else r)).find? (fun r => r.id == inc) =
      (l.find? (fun r => r.id == inc)).map (fun r => { r with status := s }) := by
  induction l with
  | nil => rfl
  | cons r rest ih =>
    by_cases h : r.id = inc
    · simp [List.find?, h]
    · have hb : (r.id == inc) = false := by simp [h]
      simp [List.find?, h, hb, ih]

/-- C7 (amended): for a selected plan, with credentials present, a truthy
actions payload whose entries are all dicts, and an existing incident
row, the command persists the created rows at the end of the actions
table with consecutive steps 1..N, creates at most six of them, and
transitions the incident to ACTIONS_GENERATED. -/
theorem C7_actions_generated (env : AIEnv) (db : DB) (pid : Nat) (plan : PlanRow) (k : String)
    (hf : findPlan db pid = some plan)
    (hk : env.apiKey = some k)
    (hobjs : ∀ e ∈ toElems (generate_actions env), ∃ fs, e = Json.obj fs)
    (hne : pyTruthy (generate_actions env) = true)
    (hinc : (db.incidents.find? (fun r => r.id == plan.incident)).isSome = true) :
    ∃ created : List ActionRow,
      (handle env db pid).actions = db.actions ++ created ∧
      created.length ≤ 6 ∧
      created.map (fun a => a.step) = List.range' 1 created.length ∧
      incidentStatus (handle env db pid) plan.incident = some "ACTIONS_GENERATED" := by
  unfold handle
  rw [hf, hk]
  simp only [hne]
  rw [if_neg (show ¬(true = false) by decide)]
  set db1 : DB := { db with plans := selectPlanRows db.plans plan.incident pid } with hdb1
  set elems : List Json := toElems (generate_actions env) with helems
  refine ⟨(create_action_records plan db1 1 elems).2, ?_, ?_, ?_, ?_⟩
  · have hca := car_state plan elems db1 1
    have hpd := processDelivs_state env (create_action_records plan db1 1 elems).2
      (create_action_records plan db1 1 elems).1 0
    simp only [setIncidentStatus]
    rw [hpd.2.2, hca.2.2.2]
  · have h6 := gen_actions_le6 env
    rw [← helems] at h6
    have hmap := car_objs plan elems db1 1 hobjs
    have hlen := congrArg List.length hmap
    simp only [List.length_map, List.length_range'] at hlen
    omega
  · have hmap := car_objs plan elems db1 1 hobjs
    have hlen := congrArg List.length hmap
    simp only [List.length_map, List.length_range'] at hlen
    rw [hmap, hlen]
  · have hca := car_state plan elems db1 1
    have hpd := processDelivs_state env (create_action_records plan db1 1 elems).2
      (create_action_records plan db1 1 elems).1 0
    unfold incidentStatus
    simp only [setIncidentStatus]
    rw [hpd.2.1, hca.2.1]
    have hdb1inc : db1.incidents = db.incidents := rfl
    rw [hdb1inc, find_set_status]
    obtain ⟨r, hr⟩ := Option.isSome_iff_exists.mp hinc
    rw [hr]
    rfl

/-- Oracle for the C7 counterexample: credentials present and a valid
model reply carrying exactly one action. -/
def envC7 : AIEnv :=
  { apiKey := some "sk-or-test", actionsResp := some "\x7b\"actions\": [\x7b\"title\": \"Only one\"\x7d]\x7d",
    needDocResp := fun _ => none, formatResp := fun _ => none, docResp := fun _ => none }

/-- Counterexample for C7 as stated: a parsable model reply with a single
action makes the command persist exactly one Action row, not between
four and six. -/
theorem C7_counterexample :
    (handle envC7 dbC3 1).actions.length = 1 ∧ ¬(4 ≤ 1 ∧ 1 ≤ 6) :=
  ⟨rfl, by decide⟩

/-- Oracle for the C7 witness: credentials present, the actions call
raises, so the static four-action fallback is used. -/
def envC7fb : AIEnv :=
  { apiKey := some "sk-or-test", actionsResp := none,
    needDocResp := fun _ => none, formatResp := fun _ => none, docResp := fun _ => none }

/-- Witness for the amended C7 on the fallback path. -/
theorem C7_actions_generated_witness :
    ∃ created : List ActionRow,
      (handle envC7fb dbC3 1).actions = dbC3.actions ++ created ∧
      created.length ≤ 6 ∧
      created.map (fun a => a.step) = List.range' 1 created.length ∧
      incidentStatus (handle envC7fb dbC3 1) 1 = some "ACTIONS_GENERATED" :=
  C7_actions_generated envC7fb dbC3 1 ⟨1, 1, false, "GENERATED"⟩ "sk-or-test"
    (by rfl) (by rfl)
    (by
      intro e he
      simp only [generate_actions, toElems, fallback_actions, envC7fb, List.mem_cons,
        List.not_mem_nil, or_false] at he
      rcases he with rfl | rfl | rfl | rfl <;> exact ⟨_, rfl⟩)
    (by rfl) (by rfl)

/-- Concrete action used to exercise the deliverable pipeline. -/
def demoAction : ActionRow :=
  { id := 1, action_plan := 1, incident := 1, step := 1,
    title := .str "Assess Incident Scope",
    description := .str "Evaluate the full extent and impact of the security incident",
    operator := .str "Security Analyst", priority := .str "Critical",
    estimated_hours := .num 1, ghostdraft := true }

/-- Specs record of the default expert persona. -/
def demoSpecs : Json :=
  Json.obj [("expert_role", .str "Incident Response Specialist"), ("format", .str "HTML"),
    ("voice_eligible", .bool true), ("export_options", .str "PDF,Email,Voice"),
    ("reasoning", .str "General incident response action requiring coordination expertise")]

/-- Oracle for C9: the documentation call succeeds with short prose
(under the 2000-character threshold). -/
def envDoc : AIEnv :=
  { apiKey := some "sk-or-test", actionsResp := none, needDocResp := fun _ => none,
    formatResp := fun _ => none, docResp := fun _ => some "Short documentation prose from the model." }

/-- Empty database for the C9 evaluation. -/
def dbC9 : DB := { incidents := [], plans := [], actions := [], delivs := [], nextAid := 1 }

/-- C9 evaluated at the failing input: the formatter raises (UnboundLocalError
inside the f-string, then AttributeError from the handler calling the
module-level fallback through `self`), so instead of padding the content
to the 2500-character minimum the pipeline leaves the created deliverable
with empty content. -/
theorem C9_formatter_always_raises :
    generate_adaptive_documentation_enhanced envDoc 0 demoAction demoSpecs =
      .error (PyErr.attributeError "generate_comprehensive_fallback_documentation") ∧
    (processOne envDoc dbC9 0 demoAction).delivs =
      [{ action := 1, deliverable_format := .str "HTML",
         export_options := .str "PDF,Email,Voice",
         voice_eligible := .bool true, content := "" }] :=
  ⟨rfl, rfl⟩

/-- Six fixed expert-role records of the keyword fallback. -/
def expertFallbackRecords : List Json :=
  [Json.obj [("expert_role", .str "Communications Expert"), ("format", .str "HTML"),
     ("voice_eligible", .bool true), ("export_options", .str "PDF,Email,Voice"),
     ("reasoning", .str "Action involves stakeholder communication requiring accessible formats")],
   Json.obj [("expert_role", .str "Technical Specialist"), ("format", .str "HTML"),
     ("voice_eligible", .bool false), ("export_options", .str "PDF,Email"),
     ("reasoning", .str "Technical action requires detailed documentation with technical specifications")],
   Json.obj [("expert_role", .str "Legal Compliance Expert"), ("format", .str "HTML"),
     ("voice_eligible", .bool false), ("export_options", .str "PDF,Email"),
     ("reasoning", .str "Action involves legal/compliance requirements needing formal documentation")],
   Json.obj [("expert_role", .str "Executive Advisor"), ("format", .str "HTML"),
     ("voice_eligible", .bool true), ("export_options", .str "PDF,Email,Voice"),
     ("reasoning", .str "Executive-level action requiring strategic perspective and clear communication")],
   Json.obj [("expert_role", .str "Business Continuity Manager"), ("format", .str "HTML"),
     ("voice_eligible", .bool true), ("export_options", .str "PDF,Email,Voice"),
     ("reasoning", .str "Business continuity action requiring operational perspective")],
   Json.obj [("expert_role", .str "Incident Response Specialist"), ("format", .str "HTML"),
     ("voice_eligible", .bool true), ("export_options", .str "PDF,Email,Voice"),
     ("reasoning", .str "General incident response action requiring coordination expertise")]]

/-- C10: on every action whose title and description are strings (as the
schema stores them) the keyword fallback returns one of the six fixed
records, always with format HTML, with voice eligibility true exactly for
the export options PDF,Email,Voice and false exactly for PDF,Email. -/
theorem C10_format_fallback_consistent (a : ActionRow) (t d : String)
    (ht : a.title = .str t) (hd : a.description = .str d) :
    ∃ r, determine_format_fallback a = .ok r ∧
      r ∈ expertFallbackRecords ∧
      pyIndex r "format" = .ok (.str "HTML") ∧
      (pyIndex r "voice_eligible" = .ok (.bool true) ↔
        pyIndex r "export_options" = .ok (.str "PDF,Email,Voice")) ∧
      (pyIndex r "voice_eligible" = .ok (.bool false) ↔
        pyIndex r "export_options" = .ok (.str "PDF,Email")) := by
  rw [determine_format_fallback, ht, hd]
  simp only [pyLower]
  by_cases hv : pyTruthy (Json.str d) = true
  · rw [if_pos hv]
    simp only [pyLower]
    repeat' split
    all_goals
      exact ⟨_, rfl, by simp [expertFallbackRecords], by rfl,
        by simp [pyIndex, lookupField], by simp [pyIndex, lookupField]⟩
  · rw [if_neg hv]
    repeat' split
    all_goals
      first
        | exact ⟨_, rfl, by simp [expertFallbackRecords], by rfl,
            by simp [pyIndex, lookupField], by simp [pyIndex, lookupField]⟩
        | (rename_i heq; exact absurd heq (by simp))

/-- Witness for C10 at the concrete demo action. -/
theorem C10_format_fallback_consistent_witness :
    ∃ r, determine_format_fallback demoAction = .ok r ∧
      r ∈ expertFallbackRecords ∧
      pyIndex r "format" = .ok (.str "HTML") ∧
      (pyIndex r "voice_eligible" = .ok (.bool true) ↔
        pyIndex r "export_options" = .ok (.str "PDF,Email,Voice")) ∧
      (pyIndex r "voice_eligible" = .ok (.bool false) ↔
        pyIndex r "export_options" = .ok (.str "PDF,Email")) :=
  C10_format_fallback_consistent demoAction "Assess Incident Scope"
    "Evaluate the full extent and impact of the security incident" rfl rfl
